import Mathlib

/-!
cyberark-ssh: configuration resolution and command assembly.

A shallow embedding of `main.go`: alias expansion (`resolveAlias`), entry
resolution (`lookupServer`, `effectiveEntry`), the connection string
(`buildConnStr`) and the argument vectors assembled by `doSSH` and `doSCP`.

Modelling conventions.

* Go strings are Lean `String`s.  The only characters the code inspects are
  the ASCII `:` (and the claims inspect `@`), which are single bytes that never
  occur inside a multi-byte UTF-8 sequence, so cutting at bytes and cutting at
  characters agree.
* A Go `map[string]V` is an association list read by `mapGet` (first binding
  of the key).  A nil map is the empty list.
* `Config.Servers` is a `map[string]*ServerEntry`.  A binding holds either the
  nil pointer (`none`; the YAML decoder stores it for a key whose value is
  null) or a pointer to an entry owned by that binding (`some e`; the decoder
  allocates one entry per key).  A write through the pointer obtained from the
  map is therefore a write to the binding, recorded by `mapStore`.
* Writes to `os.Stderr` are collected as a list of `Diag` values, each one
  standing for one `Fprintf` call with its arguments.
* `os.Exit(1)` and a nil-pointer panic are outcomes of their own.
* The model of `doSSH` and `doSCP` stops once the argument vector is assembled
  and logged; looking up the binary and `syscall.Exec` are not modelled.
-/

namespace CyberarkSSH

/-! ## Data model -/

/-- Per-server connection details (`type ServerEntry struct`). -/
structure ServerEntry where
  Vault : String
  Account : String
  Domain : String
deriving DecidableEq, Repr, Inhabited

/-- The configuration file in memory (`type Config struct`). -/
structure Config where
  User : String
  CyberArkHost : String
  Port : Int
  DefaultVault : String
  DefaultAccount : String
  DefaultDomain : String
  Servers : List (String × Option ServerEntry)
  Aliases : List (String × String)
  SSHArgs : List String
deriving DecidableEq, Repr

/-- Go map index `m[key]` with the comma-ok result: the first binding of `key`. -/
def mapGet {V : Type} : List (String × V) → String → Option V
  | [], _ => none
  | (k, v) :: rest, key => if k = key then some v else mapGet rest key

/-- Replace the value of the binding that `mapGet` reads for `key`; a map
without such a binding is left as it is. -/
def mapStore {V : Type} : List (String × V) → String → V → List (String × V)
  | [], _, _ => []
  | (k, v) :: rest, key, w =>
    if k = key then (k, w) :: rest else (k, v) :: mapStore rest key w

/-- The two errors `effectiveEntry` builds with `fmt.Errorf`; both report that
no vault is configured for the server. -/
inductive ResolveError where
  /-- `server %q not found in config and no default_vault set` -/
  | notFoundNoDefault (server : String)
  /-- `no vault configured for server %q and no default_vault set` -/
  | noVault (server : String)
deriving DecidableEq, Repr

/-- One write to `os.Stderr`. -/
inductive Diag where
  /-- `note: server %q not in config, using defaults` -/
  | noteUsingDefaults (server : String)
  /-- `error: %v` with the error of `effectiveEntry` -/
  | resolveError (e : ResolveError)
  /-- The four lines `error: scp requires source and destination`, `usage: ...` -/
  | scpUsage
  /-- `error: invalid remote path %q — use :<server>:<path>` -/
  | invalidRemotePath (arg : String)
  /-- `→ %s` with the argument vector joined by blanks -/
  | command (argv : List String)
deriving DecidableEq, Repr

/-- Result of a call that returns `(value, error)` and may dereference nil. -/
inductive Res (α : Type) where
  | ok (a : α)
  | err (e : ResolveError)
  | panic
deriving DecidableEq, Repr

/-- An `effectiveEntry` call: the configuration afterwards, what was written
to stderr, and what was returned. -/
structure Resolution where
  cfg : Config
  stderr : List Diag
  result : Res ServerEntry
deriving DecidableEq, Repr

/-- How far a command got. -/
inductive Outcome where
  /-- The argument vector was assembled and logged. -/
  | argv (args : List String)
  /-- `os.Exit(1)` before an argument vector was complete. -/
  | exit1
  /-- Runtime panic (nil-pointer dereference). -/
  | panic
deriving DecidableEq, Repr

/-- A `doSSH` or `doSCP` run. -/
structure Run where
  cfg : Config
  stderr : List Diag
  outcome : Outcome
deriving DecidableEq, Repr

/-! ## Alias resolver and entry resolution -/

/-- `func (cfg *Config) resolveAlias(name string) string` -/
def resolveAlias (cfg : Config) (name : String) : String :=
  match mapGet cfg.Aliases name with
  | some full => full
  | none => name

/-- `func (cfg *Config) lookupServer(server string) (*ServerEntry, bool)`:
`none` is `(nil, false)`, `some p` is `(p, true)`. -/
def lookupServer (cfg : Config) (server : String) : Option (Option ServerEntry) :=
  match mapGet cfg.Servers server with
  | some entry => some entry
  | none => none

/-- The three assignments under `// Fill in defaults for any empty fields.` -/
def fillDefaults (cfg : Config) (entry : ServerEntry) : ServerEntry :=
  let entry := if entry.Vault = "" then { entry with Vault := cfg.DefaultVault } else entry
  let entry := if entry.Account = "" then { entry with Account := cfg.DefaultAccount } else entry
  let entry := if entry.Domain = "" then { entry with Domain := cfg.DefaultDomain } else entry
  entry

/-- `func (cfg *Config) effectiveEntry(server string) (*ServerEntry, error)`.

When the server is found, `entry` is the pointer stored in `cfg.Servers`, so
the assignments of `fillDefaults` write to the stored entry; when it is not
found they write to the fresh `&ServerEntry{}`. -/
def effectiveEntry (cfg : Config) (server : String) : Resolution :=
  match lookupServer cfg server with
  | none =>
    if cfg.DefaultVault = "" then
      ⟨cfg, [], .err (.notFoundNoDefault server)⟩
    else
      let entry := fillDefaults cfg ⟨"", "", ""⟩
      if entry.Vault = "" then
        ⟨cfg, [.noteUsingDefaults server], .err (.noVault server)⟩
      else
        ⟨cfg, [.noteUsingDefaults server], .ok entry⟩
  | some none => ⟨cfg, [], .panic⟩
  | some (some stored) =>
    let entry := fillDefaults cfg stored
    let cfg := { cfg with Servers := mapStore cfg.Servers server (some entry) }
    if entry.Vault = "" then
      ⟨cfg, [], .err (.noVault server)⟩
    else
      ⟨cfg, [], .ok entry⟩

/-! ## Connection string -/

/-- `func buildConnStr(user string, entry *ServerEntry, server, cyberarkHost string) string` -/
def buildConnStr (user : String) (entry : ServerEntry) (server cyberarkHost : String) : String :=
  let middle := entry.Vault
  let middle :=
    if entry.Account ≠ "" then
      let middle := entry.Account
      if entry.Domain ≠ "" then middle ++ ("#" ++ entry.Domain) else middle
    else middle
  user ++ "@" ++ middle ++ "@" ++ server ++ "@" ++ cyberarkHost

/-! ## Command assembly -/

/-- `strconv.Itoa` -/
def Itoa (n : Int) : String :=
  if n < 0 then "-" ++ Nat.repr n.natAbs else Nat.repr n.toNat

/-- `strings.HasPrefix(s, ":")` -/
def startsWithColon (s : String) : Bool :=
  match s.data with
  | c :: _ => c = ':'
  | [] => false

/-- `s[1:]`, used after `startsWithColon s`: the string without its first
(one-byte) character. -/
def dropFirst (s : String) : String :=
  String.mk (s.data.drop 1)

/-- `strings.Index(s, sep)` followed by the two slices `s[:m]` and
`s[m+len(sep):]`, for the one-character separator `sep`: `none` when `sep`
does not occur. -/
def cutAt (sep : Char) : List Char → Option (List Char × List Char)
  | [] => none
  | c :: cs =>
    if c = sep then some ([], cs)
    else
      match cutAt sep cs with
      | some (before, after) => some (c :: before, after)
      | none => none

/-- `strings.SplitN(s, sep, 2)` for a one-character `sep`: the pieces before
and after the first `sep`, or `s` alone when `sep` does not occur (for the
empty `s` Go lowers `n` to 1 and also returns `s` alone). -/
def SplitN2 (s : String) (sep : Char) : List String :=
  match cutAt sep s.data with
  | some (before, after) => [String.mk before, String.mk after]
  | none => [s]

/-- `func doSSH(cfg *Config, server string, extraArgs []string, dryRun bool)`
up to the logged argument vector. -/
def doSSH (cfg : Config) (server : String) (extraArgs : List String) : Run :=
  let server := resolveAlias cfg server
  let r := effectiveEntry cfg server
  let cfg := r.cfg
  match r.result with
  | .err e => ⟨cfg, r.stderr ++ [.resolveError e], .exit1⟩
  | .panic => ⟨cfg, r.stderr, .panic⟩
  | .ok entry =>
    let connStr := buildConnStr cfg.User entry server cfg.CyberArkHost
    let sshArgs := ["ssh"]
    let port := cfg.Port
    let sshArgs := if port ≠ 0 ∧ port ≠ 22 then sshArgs ++ ["-p", Itoa port] else sshArgs
    let sshArgs := sshArgs ++ cfg.SSHArgs
    let sshArgs := sshArgs ++ extraArgs
    let sshArgs := sshArgs ++ [connStr]
    ⟨cfg, r.stderr ++ [.command sshArgs], .argv sshArgs⟩

/-- The loop `for _, arg := range args` of `doSCP`, entered with the
configuration, the stderr written so far and the `scpArgs` built so far, and
the log line that follows it. -/
def scpLoop (cfg : Config) (stderr : List Diag) (scpArgs : List String) :
    List String → Run
  | [] => ⟨cfg, stderr ++ [.command scpArgs], .argv scpArgs⟩
  | arg :: args =>
    if startsWithColon arg then
      let rest := dropFirst arg
      match SplitN2 rest ':' with
      | [part0, part1] =>
        let server := resolveAlias cfg part0
        let remotePath := part1
        let r := effectiveEntry cfg server
        match r.result with
        | .err e => ⟨r.cfg, stderr ++ r.stderr ++ [.resolveError e], .exit1⟩
        | .panic => ⟨r.cfg, stderr ++ r.stderr, .panic⟩
        | .ok entry =>
          let connStr := buildConnStr r.cfg.User entry server r.cfg.CyberArkHost
          scpLoop r.cfg (stderr ++ r.stderr) (scpArgs ++ [connStr ++ ":" ++ remotePath]) args
      | _ => ⟨cfg, stderr ++ [.invalidRemotePath arg], .exit1⟩
    else
      scpLoop cfg stderr (scpArgs ++ [arg]) args

/-- `func doSCP(cfg *Config, args []string)` up to the logged argument vector. -/
def doSCP (cfg : Config) (args : List String) : Run :=
  if args.length < 2 then
    ⟨cfg, [.scpUsage], .exit1⟩
  else
    let scpArgs := ["scp"]
    let port := cfg.Port
    let scpArgs := if port ≠ 0 ∧ port ≠ 22 then scpArgs ++ ["-P", Itoa port] else scpArgs
    let scpArgs := scpArgs ++ cfg.SSHArgs
    scpLoop cfg [] scpArgs args

/-! ## Notions of the specification -/

/-- The middle segment as the specification words it: `account`, followed by
`#domain` when the domain is non-empty, if the account is non-empty; else
`vault`. -/
def middleSegment (entry : ServerEntry) : String :=
  if entry.Account ≠ "" then
    if entry.Domain ≠ "" then entry.Account ++ "#" ++ entry.Domain else entry.Account
  else entry.Vault

/-- The port flag as the specification words it: nothing when the port is 0 or
22, else the flag letter followed by the port in decimal. -/
def portFlag (flag : String) (port : Int) : List String :=
  if port = 0 ∨ port = 22 then [] else [flag, Itoa port]

/-- Number of occurrences of the character `c` in `s`. -/
def countChar (c : Char) (s : String) : Nat :=
  s.data.count c

/-- The runs of characters between the occurrences of `sep`. -/
def splitChars (sep : Char) : List Char → List (List Char)
  | [] => [[]]
  | c :: cs =>
    if c = sep then [] :: splitChars sep cs
    else
      match splitChars sep cs with
      | [] => [[c]]
      | piece :: pieces => (c :: piece) :: pieces

/-- The segments of `s` separated by `sep`. -/
def segments (sep : Char) (s : String) : List String :=
  (splitChars sep s.data).map String.mk

/-- A remote-path token that lacks its second colon: it begins with `:` and no
`:` follows. -/
def malformedRemote (arg : String) : Prop :=
  startsWithColon arg = true ∧ ':' ∉ (dropFirst arg).data

instance (arg : String) : Decidable (malformedRemote arg) := by
  unfold malformedRemote
  infer_instance

/-- What relates the configuration `c` reached after calls of `effectiveEntry`
to the loaded configuration `cfg`: every field but `Servers` is the same, and
`Servers` has the same keys with entries that fill up to the same values. -/
def SameResolution (cfg c : Config) : Prop :=
  c.User = cfg.User ∧ c.CyberArkHost = cfg.CyberArkHost ∧ c.Port = cfg.Port ∧
  c.DefaultVault = cfg.DefaultVault ∧ c.DefaultAccount = cfg.DefaultAccount ∧
  c.DefaultDomain = cfg.DefaultDomain ∧ c.Aliases = cfg.Aliases ∧ c.SSHArgs = cfg.SSHArgs ∧
  ∀ key, (mapGet c.Servers key).map (Option.map (fillDefaults cfg))
    = (mapGet cfg.Servers key).map (Option.map (fillDefaults cfg))

/-! ## Sample configurations -/

/-- Scenario 1 of the specification. -/
def cfgScenario1 : Config :=
  { User := "alice", CyberArkHost := "proxy.example.com", Port := 0,
    DefaultVault := "", DefaultAccount := "", DefaultDomain := "",
    Servers := [("web1", some ⟨"vault_a", "", ""⟩)], Aliases := [], SSHArgs := [] }

/-- A server entry with nothing filled in, no default vault, a default account. -/
def cfgUnfilled : Config :=
  { User := "alice", CyberArkHost := "proxy.example.com", Port := 22,
    DefaultVault := "", DefaultAccount := "root", DefaultDomain := "",
    Servers := [("web1", some ⟨"", "", ""⟩)], Aliases := [], SSHArgs := [] }

/-- Two chained aliases, a server with a null value and defaults for the rest. -/
def cfgChained : Config :=
  { User := "alice", CyberArkHost := "proxy.example.com", Port := 2222,
    DefaultVault := "vault_d", DefaultAccount := "", DefaultDomain := "",
    Servers := [("web1", some ⟨"vault_a", "root", "corp.com"⟩), ("db1", some ⟨"", "", ""⟩),
      ("null1", none)],
    Aliases := [("a", "b"), ("b", "c"), ("w", "web1")], SSHArgs := ["-o", "StrictHostKeyChecking=no"] }

/-- A server whose value in the YAML file is null (`web1:` with nothing after
the colon), and no default vault. -/
def cfgNullEntry : Config :=
  { User := "alice", CyberArkHost := "proxy.example.com", Port := 22,
    DefaultVault := "", DefaultAccount := "", DefaultDomain := "",
    Servers := [("web1", none)], Aliases := [], SSHArgs := [] }

/-! ## Theorems -/

/-! ### Connection string -/

/-- C1: `buildConnStr` returns `user@MIDDLE@server@host`, where MIDDLE is
`account#domain` when account and domain are both non-empty, `account` when
only the account is non-empty, and `vault` when the account is empty; with a
non-empty account the result does not depend on the vault. -/
theorem buildConnStr_middle (user server host : String) (entry : ServerEntry) :
    (entry.Account ≠ "" → entry.Domain ≠ "" →
      buildConnStr user entry server host
        = user ++ "@" ++ (entry.Account ++ "#" ++ entry.Domain) ++ "@" ++ server ++ "@" ++ host) ∧
    (entry.Account ≠ "" → entry.Domain = "" →
      buildConnStr user entry server host
        = user ++ "@" ++ entry.Account ++ "@" ++ server ++ "@" ++ host) ∧
    (entry.Account = "" →
      buildConnStr user entry server host
        = user ++ "@" ++ entry.Vault ++ "@" ++ server ++ "@" ++ host) ∧
    (entry.Account ≠ "" → ∀ vault : String,
      buildConnStr user { entry with Vault := vault } server host
        = buildConnStr user entry server host) := by
  refine ⟨?_, ?_, ?_, ?_⟩
  · intro ha hd
    simp [buildConnStr, ha, hd, String.append_assoc]
  · intro ha hd
    simp [buildConnStr, ha, hd]
  · intro ha
    simp [buildConnStr, ha]
  · intro ha vault
    simp [buildConnStr, ha]

/-- Scenario 2 of the specification, through C1. -/
theorem buildConnStr_middle_witness :
    buildConnStr "alice" ⟨"vault_a", "root", "corp.com"⟩ "web1" "proxy.example.com"
        = "alice@root#corp.com@web1@proxy.example.com" ∧
    buildConnStr "alice" ⟨"vault_a", "root", ""⟩ "web1" "proxy.example.com"
        = "alice@root@web1@proxy.example.com" ∧
    buildConnStr "alice" ⟨"vault_a", "", "corp.com"⟩ "web1" "proxy.example.com"
        = "alice@vault_a@web1@proxy.example.com" :=
  ⟨((buildConnStr_middle "alice" "web1" "proxy.example.com" ⟨"vault_a", "root", "corp.com"⟩).1
      (by decide) (by decide)).trans (by decide),
   ((buildConnStr_middle "alice" "web1" "proxy.example.com" ⟨"vault_a", "root", ""⟩).2.1
      (by decide) (by decide)).trans (by decide),
   ((buildConnStr_middle "alice" "web1" "proxy.example.com" ⟨"vault_a", "", "corp.com"⟩).2.2.1
      (by decide)).trans (by decide)⟩

/-! ### Entry resolution -/

theorem lookupServer_eq (cfg : Config) (server : String) :
    lookupServer cfg server = mapGet cfg.Servers server := by
  unfold lookupServer
  cases mapGet cfg.Servers server <;> rfl

/-- C2: for a server that is a key of `servers`, a successful `effectiveEntry`
returns, field by field, the stored value when it is non-empty and the default
otherwise; and a stored entry with a non-empty vault resolves successfully to
that vault. -/
theorem effectiveEntry_present (cfg : Config) (server : String) (p : Option ServerEntry)
    (hp : mapGet cfg.Servers server = some p) :
    (∀ r, (effectiveEntry cfg server).result = .ok r →
      ∃ e, p = some e ∧
        r.Vault = (if e.Vault ≠ "" then e.Vault else cfg.DefaultVault) ∧
        r.Account = (if e.Account ≠ "" then e.Account else cfg.DefaultAccount) ∧
        r.Domain = (if e.Domain ≠ "" then e.Domain else cfg.DefaultDomain)) ∧
    (∀ e, p = some e → e.Vault ≠ "" →
      ∃ r, (effectiveEntry cfg server).result = .ok r ∧ r.Vault = e.Vault) := by
  constructor
  · intro r hr
    cases p with
    | none => simp [effectiveEntry, lookupServer_eq, hp] at hr
    | some e =>
      refine ⟨e, rfl, ?_⟩
      simp only [effectiveEntry, lookupServer_eq, hp] at hr
      split at hr
      · simp at hr
      · injection hr with hr
        subst hr
        simp only [fillDefaults]
        refine ⟨?_, ?_, ?_⟩ <;> split_ifs <;> simp_all
  · intro e he hv
    subst he
    have hfill : (fillDefaults cfg e).Vault = e.Vault := by
      simp only [fillDefaults]
      split_ifs <;> simp_all
    refine ⟨fillDefaults cfg e, ?_, hfill⟩
    simp [effectiveEntry, lookupServer_eq, hp, hfill, hv]

/-- C2 at `web1` and `db1` of `cfgChained`. -/
theorem effectiveEntry_present_witness :
    (∀ r, (effectiveEntry cfgChained "db1").result = .ok r →
      ∃ e, some (⟨"", "", ""⟩ : ServerEntry) = some e ∧
        r.Vault = (if e.Vault ≠ "" then e.Vault else cfgChained.DefaultVault) ∧
        r.Account = (if e.Account ≠ "" then e.Account else cfgChained.DefaultAccount) ∧
        r.Domain = (if e.Domain ≠ "" then e.Domain else cfgChained.DefaultDomain)) ∧
    (∃ r, (effectiveEntry cfgChained "web1").result = .ok r ∧ r.Vault = "vault_a") :=
  ⟨(effectiveEntry_present cfgChained "db1" (some ⟨"", "", ""⟩) (by decide)).1,
   (effectiveEntry_present cfgChained "web1" (some ⟨"vault_a", "root", "corp.com"⟩)
      (by decide)).2 ⟨"vault_a", "root", "corp.com"⟩ rfl (by decide)⟩

/-- C3: for a server that is not a key of `servers`, `effectiveEntry` fails
when `defaultVault` is empty and otherwise succeeds with the three defaults. -/
theorem effectiveEntry_absent (cfg : Config) (server : String)
    (h : mapGet cfg.Servers server = none) :
    (cfg.DefaultVault = "" →
      (effectiveEntry cfg server).result = .err (.notFoundNoDefault server)) ∧
    (cfg.DefaultVault ≠ "" →
      (effectiveEntry cfg server).result
        = .ok ⟨cfg.DefaultVault, cfg.DefaultAccount, cfg.DefaultDomain⟩) := by
  constructor
  · intro hv
    simp [effectiveEntry, lookupServer_eq, h, hv]
  · intro hv
    simp [effectiveEntry, lookupServer_eq, h, hv, fillDefaults]

/-- C3 at a server missing from `cfgScenario1` (no default vault) and from
`cfgChained` (default vault `vault_d`). -/
theorem effectiveEntry_absent_witness :
    (effectiveEntry cfgScenario1 "nosuch").result = .err (.notFoundNoDefault "nosuch") ∧
    (effectiveEntry cfgChained "nosuch").result = .ok ⟨"vault_d", "", ""⟩ :=
  ⟨(effectiveEntry_absent cfgScenario1 "nosuch" (by decide)).1 (by decide),
   (effectiveEntry_absent cfgChained "nosuch" (by decide)).2 (by decide)⟩

/-- The outcomes of `effectiveEntry`, key by key.  It returns an error exactly
when `defaultVault` is empty and the server is either not a key of `servers` or
bound to a non-nil entry with an empty vault; the default account has no
influence on that; a successful result has a non-empty vault; and the call
dereferences nil exactly when the key is bound to the nil pointer. -/
theorem effectiveEntry_fails_iff (cfg : Config) (server : String) :
    ((∃ err, (effectiveEntry cfg server).result = .err err) ↔
      cfg.DefaultVault = "" ∧
        (mapGet cfg.Servers server = none ∨
          ∃ e, mapGet cfg.Servers server = some (some e) ∧ e.Vault = "")) ∧
    (∀ account : String,
      (∃ err, (effectiveEntry { cfg with DefaultAccount := account } server).result = .err err) ↔
        (∃ err, (effectiveEntry cfg server).result = .err err)) ∧
    (∀ r, (effectiveEntry cfg server).result = .ok r → r.Vault ≠ "") ∧
    ((effectiveEntry cfg server).result = .panic ↔ mapGet cfg.Servers server = some none) := by
  have hvault : ∀ (c : Config) (e : ServerEntry),
      (fillDefaults c e).Vault = if e.Vault = "" then c.DefaultVault else e.Vault := by
    intro c e
    simp only [fillDefaults]
    split_ifs <;> simp_all
  have key : ∀ c : Config,
      ((∃ err, (effectiveEntry c server).result = .err err) ↔
        c.DefaultVault = "" ∧
          (mapGet c.Servers server = none ∨
            ∃ e, mapGet c.Servers server = some (some e) ∧ e.Vault = "")) := by
    intro c
    cases hg : mapGet c.Servers server with
    | none =>
      by_cases hv : c.DefaultVault = ""
      · simp [effectiveEntry, lookupServer_eq, hg, hv]
      · simp [effectiveEntry, lookupServer_eq, hg, hv, hvault]
    | some p =>
      cases p with
      | none => simp [effectiveEntry, lookupServer_eq, hg]
      | some e =>
        by_cases hv : c.DefaultVault = "" <;> by_cases he : e.Vault = "" <;>
          simp [effectiveEntry, lookupServer_eq, hg, hv, he, hvault]
  refine ⟨key cfg, ?_, ?_, ?_⟩
  · intro account
    rw [key cfg, key { cfg with DefaultAccount := account }]
  · intro r hr
    cases hg : mapGet cfg.Servers server with
    | none =>
      simp only [effectiveEntry, lookupServer_eq, hg] at hr
      split_ifs at hr with h1 h2
      injection hr with hr
      subst hr
      exact h2
    | some p =>
      cases p with
      | none => simp [effectiveEntry, lookupServer_eq, hg] at hr
      | some e =>
        simp only [effectiveEntry, lookupServer_eq, hg] at hr
        split_ifs at hr with h1
        injection hr with hr
        subst hr
        exact h1
  · cases hg : mapGet cfg.Servers server with
    | none =>
      simp only [effectiveEntry, lookupServer_eq, hg]
      split_ifs <;> simp
    | some p =>
      cases p with
      | none => simp [effectiveEntry, lookupServer_eq, hg]
      | some e =>
        simp only [effectiveEntry, lookupServer_eq, hg]
        split_ifs <;> simp

/-- The error return at `cfgUnfilled`: the stored entry of `web1` has an empty
vault, there is no default vault, and the default account `root` does not
help. -/
theorem effectiveEntry_fails_iff_witness :
    (∃ err, (effectiveEntry cfgUnfilled "web1").result = .err err) ∧
    (∃ err, (effectiveEntry cfgUnfilled "nosuch").result = .err err) ∧
    ¬ (∃ err, (effectiveEntry cfgChained "db1").result = .err err) :=
  ⟨(effectiveEntry_fails_iff cfgUnfilled "web1").1.2
      ⟨by decide, Or.inr ⟨⟨"", "", ""⟩, by decide, by decide⟩⟩,
   (effectiveEntry_fails_iff cfgUnfilled "nosuch").1.2 ⟨by decide, Or.inl (by decide)⟩,
   fun h => absurd ((effectiveEntry_fails_iff cfgChained "db1").1.1 h).1 (by decide)⟩

/-- C4 on the code: a key bound to the nil pointer.  In `cfgNullEntry` there is
no default vault and `web1` has no vault of its own, so no vault can be
determined, yet `effectiveEntry` returns no error: it dereferences nil.  In
`cfgChained` the default vault `vault_d` is there for `null1`, yet the call
does not succeed either: it dereferences nil as well. -/
theorem effectiveEntry_nil_entry_panics :
    cfgNullEntry.DefaultVault = "" ∧
    mapGet cfgNullEntry.Servers "web1" = some none ∧
    lookupServer cfgNullEntry "web1" = some none ∧
    (effectiveEntry cfgNullEntry "web1").result = .panic ∧
    (∀ err, (effectiveEntry cfgNullEntry "web1").result ≠ .err err) ∧
    cfgChained.DefaultVault = "vault_d" ∧
    mapGet cfgChained.Servers "null1" = some none ∧
    (effectiveEntry cfgChained "null1").result = .panic ∧
    (∀ r, (effectiveEntry cfgChained "null1").result ≠ .ok r) := by
  have h1 : (effectiveEntry cfgNullEntry "web1").result = .panic := by decide
  have h2 : (effectiveEntry cfgChained "null1").result = .panic := by decide
  refine ⟨by decide, by decide, by decide, h1, ?_, by decide, by decide, h2, ?_⟩
  · intro err h
    rw [h1] at h
    cases h
  · intro r h
    rw [h2] at h
    cases h

/-- C5 on the code: resolving `web1` in `cfgUnfilled` fails, and afterwards the
entry stored for `web1` carries the default account; resolving `db1` in
`cfgChained` succeeds, and afterwards the entry stored for `db1` carries the
vault `vault_d` of the defaults.  In both cases the configuration is no longer
the one that was loaded. -/
theorem effectiveEntry_writes_stored_entry :
    (effectiveEntry cfgUnfilled "web1").result = .err (.noVault "web1") ∧
    mapGet cfgUnfilled.Servers "web1" = some (some ⟨"", "", ""⟩) ∧
    mapGet (effectiveEntry cfgUnfilled "web1").cfg.Servers "web1" = some (some ⟨"", "root", ""⟩) ∧
    (effectiveEntry cfgUnfilled "web1").cfg ≠ cfgUnfilled ∧
    (effectiveEntry cfgChained "db1").result = .ok ⟨"vault_d", "", ""⟩ ∧
    mapGet cfgChained.Servers "db1" = some (some ⟨"", "", ""⟩) ∧
    mapGet (effectiveEntry cfgChained "db1").cfg.Servers "db1" = some (some ⟨"vault_d", "", ""⟩) ∧
    (effectiveEntry cfgChained "db1").cfg ≠ cfgChained := by
  decide

/-! ### Alias resolver -/

/-- C9: `resolveAlias` returns the mapped value for a key of `aliases` and the
name itself otherwise; it stops after one hop (with `a -> b` and `b -> c` it
returns `b` for `a`); and applying it twice is the same as applying it once
whenever the first result is not a key of `aliases`. -/
theorem resolveAlias_single_level (cfg : Config) (name : String) :
    (∀ full, mapGet cfg.Aliases name = some full → resolveAlias cfg name = full) ∧
    (mapGet cfg.Aliases name = none → resolveAlias cfg name = name) ∧
    (∀ b c, mapGet cfg.Aliases name = some b → mapGet cfg.Aliases b = some c →
      resolveAlias cfg name = b) ∧
    (mapGet cfg.Aliases (resolveAlias cfg name) = none →
      resolveAlias cfg (resolveAlias cfg name) = resolveAlias cfg name) := by
  refine ⟨?_, ?_, ?_, ?_⟩
  · intro full h
    simp [resolveAlias, h]
  · intro h
    simp [resolveAlias, h]
  · intro b c h _
    simp [resolveAlias, h]
  · intro h
    generalize resolveAlias cfg name = x at h
    simp [resolveAlias, h]

/-- C9 at `cfgChained`, where `a -> b`, `b -> c` and `w -> web1`. -/
theorem resolveAlias_single_level_witness :
    resolveAlias cfgChained "a" = "b" ∧
    resolveAlias cfgChained "web1" = "web1" ∧
    resolveAlias cfgChained (resolveAlias cfgChained "a") ≠ resolveAlias cfgChained "a" ∧
    resolveAlias cfgChained (resolveAlias cfgChained "w") = resolveAlias cfgChained "w" :=
  ⟨(resolveAlias_single_level cfgChained "a").2.2.1 "b" "c" (by decide) (by decide),
   (resolveAlias_single_level cfgChained "web1").2.1 (by decide),
   by decide,
   (resolveAlias_single_level cfgChained "w").2.2.2 (by decide)⟩

/-! ### Shape of the connection string -/

theorem buildConnStr_eq (user server host : String) (entry : ServerEntry) :
    buildConnStr user entry server host
      = user ++ "@" ++ middleSegment entry ++ "@" ++ server ++ "@" ++ host := by
  simp only [buildConnStr, middleSegment]
  split_ifs <;> simp [String.append_assoc]

theorem splitChars_of_not_mem (sep : Char) (l : List Char) (h : sep ∉ l) :
    splitChars sep l = [l] := by
  induction l with
  | nil => rfl
  | cons c cs ih =>
    have hc : c ≠ sep := fun e => h (by simp [e])
    have hcs : sep ∉ cs := fun e => h (by simp [e])
    simp [splitChars, hc, ih hcs]

theorem splitChars_append (sep : Char) (l rest : List Char) (h : sep ∉ l) :
    splitChars sep (l ++ sep :: rest) = l :: splitChars sep rest := by
  induction l with
  | nil => simp [splitChars]
  | cons c cs ih =>
    have hc : c ≠ sep := fun e => h (by simp [e])
    have hcs : sep ∉ cs := fun e => h (by simp [e])
    simp [splitChars, hc, ih hcs]

/-- C10 as stated fails: with the non-empty user `a@b` the connection string
has four `@` and five segments. -/
theorem buildConnStr_at_count_counterexample :
    ("a@b" : String) ≠ "" ∧ ("web1" : String) ≠ "" ∧ ("proxy" : String) ≠ "" ∧
    middleSegment ⟨"vault_a", "", ""⟩ ≠ "" ∧
    countChar '@' (buildConnStr "a@b" ⟨"vault_a", "", ""⟩ "web1" "proxy") = 4 ∧
    segments '@' (buildConnStr "a@b" ⟨"vault_a", "", ""⟩ "web1" "proxy")
      = ["a", "b", "vault_a", "web1", "proxy"] := by
  decide

/-- C10, amended: when none of user, middle segment, server and proxy host
contains `@`, the connection string has exactly three `@` and its segments
are user, middle segment, server, proxy host. -/
theorem buildConnStr_segments (user server host : String) (entry : ServerEntry)
    (hu : '@' ∉ user.data) (hm : '@' ∉ (middleSegment entry).data)
    (hs : '@' ∉ server.data) (hh : '@' ∉ host.data) :
    countChar '@' (buildConnStr user entry server host) = 3 ∧
    segments '@' (buildConnStr user entry server host)
      = [user, middleSegment entry, server, host] := by
  have hat : ("@" : String).data = ['@'] := rfl
  have hdata : (buildConnStr user entry server host).data
      = user.data ++ '@' :: ((middleSegment entry).data ++ '@' :: (server.data ++ '@' :: host.data)) := by
    rw [buildConnStr_eq]
    simp [String.data_append, hat]
  constructor
  · simp only [countChar, hdata, List.count_append, List.count_cons]
    simp [List.count_eq_zero_of_not_mem, hu, hm, hs, hh]
  · simp only [segments, hdata]
    rw [splitChars_append _ _ _ hu, splitChars_append _ _ _ hm, splitChars_append _ _ _ hs,
      splitChars_of_not_mem _ _ hh]
    rfl

/-- C10, amended, at scenario 2 of the specification. -/
theorem buildConnStr_segments_witness :
    countChar '@' (buildConnStr "alice" ⟨"vault_a", "root", "corp.com"⟩ "web1" "proxy.example.com") = 3 ∧
    segments '@' (buildConnStr "alice" ⟨"vault_a", "root", "corp.com"⟩ "web1" "proxy.example.com")
      = ["alice", middleSegment ⟨"vault_a", "root", "corp.com"⟩, "web1", "proxy.example.com"] :=
  buildConnStr_segments "alice" "web1" "proxy.example.com" ⟨"vault_a", "root", "corp.com"⟩
    (by decide) (by decide) (by decide) (by decide)

/-! ### What `effectiveEntry` leaves alone -/

theorem fillDefaults_congr (cfg c : Config) (hv : c.DefaultVault = cfg.DefaultVault)
    (ha : c.DefaultAccount = cfg.DefaultAccount) (hd : c.DefaultDomain = cfg.DefaultDomain)
    (e : ServerEntry) : fillDefaults c e = fillDefaults cfg e := by
  simp [fillDefaults, hv, ha, hd]

theorem fillDefaults_idem (cfg : Config) (e : ServerEntry) :
    fillDefaults cfg (fillDefaults cfg e) = fillDefaults cfg e := by
  simp only [fillDefaults]
  split_ifs <;> simp_all

theorem mapGet_mapStore {V : Type} (m : List (String × V)) (k key : String) (w : V) :
    mapGet (mapStore m k w) key
      = if key = k then (mapGet m k).map (fun _ => w) else mapGet m key := by
  induction m with
  | nil => simp [mapStore, mapGet]
  | cons b rest ih =>
    obtain ⟨k0, v0⟩ := b
    by_cases h0 : k0 = k
    · subst h0
      by_cases h1 : key = k0
      · subst h1
        simp [mapStore, mapGet]
      · have h2 : ¬ k0 = key := fun e => h1 e.symm
        simp [mapStore, mapGet, h1, h2]
    · by_cases h1 : key = k
      · subst h1
        simp [mapStore, mapGet, h0, ih]
      · by_cases h2 : k0 = key
        · simp [mapStore, mapGet, h0, h1, h2]
        · simp [mapStore, mapGet, h0, h1, h2, ih]

theorem sameResolution_refl (cfg : Config) : SameResolution cfg cfg :=
  ⟨rfl, rfl, rfl, rfl, rfl, rfl, rfl, rfl, fun _ => rfl⟩

theorem effectiveEntry_sameResolution (cfg c : Config) (h : SameResolution cfg c)
    (server : String) :
    (effectiveEntry c server).result = (effectiveEntry cfg server).result ∧
    SameResolution cfg (effectiveEntry c server).cfg := by
  obtain ⟨h1, h2, h3, hv, ha, hd, h7, h8, hk⟩ := h
  have hfill : ∀ e, fillDefaults c e = fillDefaults cfg e := fillDefaults_congr cfg c hv ha hd
  have hs := hk server
  cases hc : mapGet c.Servers server with
  | none =>
    rw [hc] at hs
    cases hg : mapGet cfg.Servers server with
    | some q => rw [hg] at hs; simp at hs
    | none =>
      constructor
      · simp only [effectiveEntry, lookupServer_eq, hc, hg, hfill, hv]
        split_ifs <;> rfl
      · have hcfg : (effectiveEntry c server).cfg = c := by
          simp only [effectiveEntry, lookupServer_eq, hc]
          split_ifs <;> rfl
        rw [hcfg]
        exact ⟨h1, h2, h3, hv, ha, hd, h7, h8, hk⟩
  | some q =>
    rw [hc] at hs
    cases hg : mapGet cfg.Servers server with
    | none => rw [hg] at hs; simp at hs
    | some q0 =>
      rw [hg] at hs
      cases q with
      | none =>
        cases q0 with
        | some e0 => simp at hs
        | none =>
          constructor
          · simp only [effectiveEntry, lookupServer_eq, hc, hg]
          · have hcfg : (effectiveEntry c server).cfg = c := by
              simp only [effectiveEntry, lookupServer_eq, hc]
            rw [hcfg]
            exact ⟨h1, h2, h3, hv, ha, hd, h7, h8, hk⟩
      | some e =>
        cases q0 with
        | none => simp at hs
        | some e0 =>
          have he : fillDefaults cfg e = fillDefaults cfg e0 := by simpa using hs
          constructor
          · simp only [effectiveEntry, lookupServer_eq, hc, hg, hfill, he]
            split_ifs <;> rfl
          · have hcfg : (effectiveEntry c server).cfg
                = { c with Servers := mapStore c.Servers server (some (fillDefaults cfg e)) } := by
              simp only [effectiveEntry, lookupServer_eq, hc, hfill]
              split_ifs <;> rfl
            rw [hcfg]
            refine ⟨h1, h2, h3, hv, ha, hd, h7, h8, ?_⟩
            intro key
            simp only [mapGet_mapStore]
            by_cases hkey : key = server
            · subst hkey
              simp [hc, hg, fillDefaults_idem, he]
            · simp only [hkey, if_false]
              exact hk key

theorem effectiveEntry_stderr_notes (c : Config) (server : String) :
    ∀ d ∈ (effectiveEntry c server).stderr, ∃ s, d = Diag.noteUsingDefaults s := by
  intro d hd
  simp only [effectiveEntry] at hd
  split at hd
  · split_ifs at hd <;> simp_all
  · simp at hd
  · split_ifs at hd <;> simp at hd

/-! ### The argument vector of `doSSH` -/

/-- C6: when the entry of the resolved name resolves to `entry`, `doSSH`
assembles `ssh`, the port flag `-p` (absent for port 0 and 22), the configured
extra arguments, the pass-through arguments and, last, the connection string
built for `entry` and the resolved name. -/
theorem doSSH_argv (cfg : Config) (name : String) (extraArgs : List String) (entry : ServerEntry)
    (h : (effectiveEntry cfg (resolveAlias cfg name)).result = .ok entry) :
    (doSSH cfg name extraArgs).outcome
      = .argv (["ssh"] ++ portFlag "-p" cfg.Port ++ cfg.SSHArgs ++ extraArgs
          ++ [buildConnStr cfg.User entry (resolveAlias cfg name) cfg.CyberArkHost]) ∧
    (∀ argv, (doSSH cfg name extraArgs).outcome = .argv argv →
      argv.getLast? = some (buildConnStr cfg.User entry (resolveAlias cfg name) cfg.CyberArkHost)) := by
  obtain ⟨h1, h2, h3, -, -, -, -, h8, -⟩ :=
    (effectiveEntry_sameResolution cfg cfg (sameResolution_refl cfg) (resolveAlias cfg name)).2
  have main : (doSSH cfg name extraArgs).outcome
      = .argv (["ssh"] ++ portFlag "-p" cfg.Port ++ cfg.SSHArgs ++ extraArgs
          ++ [buildConnStr cfg.User entry (resolveAlias cfg name) cfg.CyberArkHost]) := by
    simp only [doSSH, h, h1, h2, h3, h8, portFlag]
    by_cases hp0 : cfg.Port = 0
    · simp [hp0]
    · by_cases hp22 : cfg.Port = 22
      · simp [hp22]
      · simp [hp0, hp22]
  refine ⟨main, ?_⟩
  intro argv hargv
  rw [main] at hargv
  injection hargv with hargv
  subst hargv
  exact List.getLast?_concat _

/-- C6 at scenario 1 of the specification, and at `cfgChained` through the
alias `w` with port 2222. -/
theorem doSSH_argv_witness :
    (doSSH cfgScenario1 "web1" []).outcome
      = .argv ["ssh", "alice@vault_a@web1@proxy.example.com"] ∧
    (doSSH cfgChained "w" ["-v"]).outcome
      = .argv ["ssh", "-p", "2222", "-o", "StrictHostKeyChecking=no", "-v",
          "alice@root#corp.com@web1@proxy.example.com"] :=
  ⟨((doSSH_argv cfgScenario1 "web1" [] ⟨"vault_a", "", ""⟩ (by decide)).1).trans (by decide),
   ((doSSH_argv cfgChained "w" ["-v"] ⟨"vault_a", "root", "corp.com"⟩ (by decide)).1).trans
      (by decide)⟩

/-! ### Remote-path tokens -/

theorem cutAt_append (sep : Char) (t p : List Char) (h : sep ∉ t) :
    cutAt sep (t ++ sep :: p) = some (t, p) := by
  induction t with
  | nil => simp [cutAt]
  | cons c cs ih =>
    have hc : c ≠ sep := fun e => h (by simp [e])
    have hcs : sep ∉ cs := fun e => h (by simp [e])
    simp [cutAt, hc, ih hcs]

theorem cutAt_of_not_mem (sep : Char) (l : List Char) (h : sep ∉ l) :
    cutAt sep l = none := by
  induction l with
  | nil => rfl
  | cons c cs ih =>
    have hc : c ≠ sep := fun e => h (by simp [e])
    have hcs : sep ∉ cs := fun e => h (by simp [e])
    simp [cutAt, hc, ih hcs]

theorem remote_data (target path : String) :
    (":" ++ target ++ ":" ++ path).data = ':' :: (target.data ++ ':' :: path.data) := by
  have hcolon : (":" : String).data = [':'] := rfl
  simp [String.data_append, hcolon]

theorem SplitN2_remote (target path : String) (h : ':' ∉ target.data) :
    SplitN2 (dropFirst (":" ++ target ++ ":" ++ path)) ':' = [target, path] := by
  simp only [SplitN2, dropFirst, remote_data, List.drop_succ_cons, List.drop_zero,
    cutAt_append _ _ _ h]

theorem SplitN2_malformed (arg : String) (h : malformedRemote arg) :
    SplitN2 (dropFirst arg) ':' = [dropFirst arg] := by
  simp only [SplitN2, cutAt_of_not_mem _ _ h.2]

/-! ### The argument vector of `doSCP` -/

theorem scpLoop_argv (cfg : Config) (f : String → String) :
    ∀ (args : List String) (c : Config) (stderr : List Diag) (acc : List String),
      SameResolution cfg c →
      (∀ a ∈ args, startsWithColon a = true →
        ∃ target path entry, a = ":" ++ target ++ ":" ++ path ∧ ':' ∉ target.data ∧
          (effectiveEntry cfg (resolveAlias cfg target)).result = .ok entry ∧
          f a = buildConnStr cfg.User entry (resolveAlias cfg target) cfg.CyberArkHost
                  ++ ":" ++ path) →
      (∀ a ∈ args, startsWithColon a = false → f a = a) →
      (scpLoop c stderr acc args).outcome = .argv (acc ++ args.map f) := by
  intro args
  induction args with
  | nil => intro c stderr acc _ _ _; simp [scpLoop]
  | cons arg args ih =>
    intro c stderr acc hsame hremote hlocal
    have hremote2 : ∀ a ∈ args, startsWithColon a = true →
        ∃ target path entry, a = ":" ++ target ++ ":" ++ path ∧ ':' ∉ target.data ∧
          (effectiveEntry cfg (resolveAlias cfg target)).result = .ok entry ∧
          f a = buildConnStr cfg.User entry (resolveAlias cfg target) cfg.CyberArkHost
                  ++ ":" ++ path :=
      fun a ha => hremote a (List.mem_cons_of_mem _ ha)
    have hlocal2 : ∀ a ∈ args, startsWithColon a = false → f a = a :=
      fun a ha => hlocal a (List.mem_cons_of_mem _ ha)
    cases hcol : startsWithColon arg with
    | false =>
      have hf : f arg = arg := hlocal arg (List.mem_cons_self _ _) hcol
      simp only [scpLoop, hcol, Bool.false_eq_true, if_false]
      rw [ih c stderr (acc ++ [arg]) hsame hremote2 hlocal2]
      simp [hf]
    | true =>
      obtain ⟨target, path, entry, harg, hnot, hres, hf⟩ :=
        hremote arg (List.mem_cons_self _ _) hcol
      have halias : resolveAlias c target = resolveAlias cfg target := by
        simp only [resolveAlias, hsame.2.2.2.2.2.2.1]
      obtain ⟨hresult, hsame2⟩ :=
        effectiveEntry_sameResolution cfg c hsame (resolveAlias cfg target)
      rw [hres] at hresult
      have hsplit : SplitN2 (dropFirst arg) ':' = [target, path] := by
        rw [harg]; exact SplitN2_remote target path hnot
      simp only [scpLoop, hcol, hsplit, halias, hresult, if_true]
      rw [ih _ _ _ hsame2 hremote2 hlocal2, hsame2.1, hsame2.2.1]
      simp [hf]

/-- C7: for at least two path arguments, each of which either does not begin
with `:` or is `:target:path` with no `:` in `target` and a target whose entry
resolves, `doSCP` assembles `scp`, the port flag `-P` (absent for port 0 and
22), the configured extra arguments and the arguments in their order, each
mapped by `f`; `f` keeps an argument that does not begin with `:` and turns
`:target:path` into the connection string of the resolved target followed by
`:path`. -/
theorem doSCP_argv (cfg : Config) (args : List String) (f : String → String)
    (hlen : 2 ≤ args.length)
    (hremote : ∀ a ∈ args, startsWithColon a = true →
      ∃ target path entry, a = ":" ++ target ++ ":" ++ path ∧ ':' ∉ target.data ∧
        (effectiveEntry cfg (resolveAlias cfg target)).result = .ok entry ∧
        f a = buildConnStr cfg.User entry (resolveAlias cfg target) cfg.CyberArkHost
                ++ ":" ++ path)
    (hlocal : ∀ a ∈ args, startsWithColon a = false → f a = a) :
    (doSCP cfg args).outcome
      = .argv (["scp"] ++ portFlag "-P" cfg.Port ++ cfg.SSHArgs ++ args.map f) := by
  have hlt : ¬ args.length < 2 := by omega
  simp only [doSCP, hlt, if_false]
  rw [scpLoop_argv cfg f args cfg _ _ (sameResolution_refl cfg) hremote hlocal]
  simp only [portFlag]
  by_cases hp0 : cfg.Port = 0
  · simp [hp0]
  · by_cases hp22 : cfg.Port = 22
    · simp [hp22]
    · simp [hp0, hp22]

/-- C7 at scenario 3 of the specification, and at `cfgChained` with an alias,
a path that contains a further `:`, a local file and a server whose stored
entry is filled from the defaults. -/
theorem doSCP_argv_witness :
    (doSCP cfgScenario1 ["file.txt", ":web1:/tmp/file.txt"]).outcome
      = .argv ["scp", "file.txt", "alice@vault_a@web1@proxy.example.com:/tmp/file.txt"] ∧
    (doSCP cfgChained [":w:/etc/a:b", "local.txt", ":db1:x"]).outcome
      = .argv ["scp", "-P", "2222", "-o", "StrictHostKeyChecking=no",
          "alice@root#corp.com@web1@proxy.example.com:/etc/a:b", "local.txt",
          "alice@vault_d@db1@proxy.example.com:x"] :=
  ⟨(doSCP_argv cfgScenario1 ["file.txt", ":web1:/tmp/file.txt"]
    (fun a => if a = ":web1:/tmp/file.txt"
      then "alice@vault_a@web1@proxy.example.com:/tmp/file.txt" else a)
    (by decide)
    (by
      intro a ha hcol
      simp only [List.mem_cons, List.mem_singleton, List.not_mem_nil, or_false] at ha
      rcases ha with rfl | rfl
      · exact absurd hcol (by decide)
      · exact ⟨"web1", "/tmp/file.txt", ⟨"vault_a", "", ""⟩, by decide, by decide, by decide,
          by decide⟩)
    (by
      intro a ha hcol
      simp only [List.mem_cons, List.mem_singleton, List.not_mem_nil, or_false] at ha
      rcases ha with rfl | rfl
      · decide
      · exact absurd hcol (by decide))).trans (by decide),
   (doSCP_argv cfgChained [":w:/etc/a:b", "local.txt", ":db1:x"]
    (fun a =>
      if a = ":w:/etc/a:b" then "alice@root#corp.com@web1@proxy.example.com:/etc/a:b"
      else if a = ":db1:x" then "alice@vault_d@db1@proxy.example.com:x" else a)
    (by decide)
    (by
      intro a ha hcol
      simp only [List.mem_cons, List.mem_singleton, List.not_mem_nil, or_false] at ha
      rcases ha with rfl | rfl | rfl
      · exact ⟨"w", "/etc/a:b", ⟨"vault_a", "root", "corp.com"⟩, by decide, by decide,
          by decide, by decide⟩
      · exact absurd hcol (by decide)
      · exact ⟨"db1", "x", ⟨"vault_d", "", ""⟩, by decide, by decide, by decide, by decide⟩)
    (by
      intro a ha hcol
      simp only [List.mem_cons, List.mem_singleton, List.not_mem_nil, or_false] at ha
      rcases ha with rfl | rfl | rfl
      · exact absurd hcol (by decide)
      · decide
      · exact absurd hcol (by decide))).trans (by decide)⟩

/-! ### Malformed remote-path tokens -/

theorem scpLoop_malformed_no_argv :
    ∀ (args : List String) (c : Config) (stderr : List Diag) (acc : List String),
      (∃ bad ∈ args, malformedRemote bad) →
      ∀ argv, (scpLoop c stderr acc args).outcome ≠ .argv argv := by
  intro args
  induction args with
  | nil => intro c stderr acc h; simp at h
  | cons arg args ih =>
    intro c stderr acc h argv
    obtain ⟨bad, hmem, hbad⟩ := h
    by_cases harg : malformedRemote arg
    · simp [scpLoop, harg.1, SplitN2_malformed arg harg]
    · have htail : ∃ bad ∈ args, malformedRemote bad := by
        rcases List.mem_cons.1 hmem with e | e
        · exact absurd (e ▸ hbad) harg
        · exact ⟨bad, e, hbad⟩
      cases hcol : startsWithColon arg with
      | false =>
        simp only [scpLoop, hcol, Bool.false_eq_true, if_false]
        exact ih _ _ _ htail argv
      | true =>
        simp only [scpLoop, hcol, if_true]
        split
        · split
          · simp
          · simp
          · exact ih _ _ _ htail argv
        · simp

theorem scpLoop_first_malformed (cfg : Config) (bad : String) (post : List String)
    (hbad : malformedRemote bad) :
    ∀ (pre : List String) (c : Config) (stderr : List Diag) (acc : List String),
      SameResolution cfg c →
      (∀ a ∈ pre, startsWithColon a = true →
        ∃ target path entry, a = ":" ++ target ++ ":" ++ path ∧ ':' ∉ target.data ∧
          (effectiveEntry cfg (resolveAlias cfg target)).result = .ok entry) →
      (scpLoop c stderr acc (pre ++ bad :: post)).outcome = .exit1 ∧
      ∃ notes, (scpLoop c stderr acc (pre ++ bad :: post)).stderr
          = stderr ++ notes ++ [.invalidRemotePath bad] ∧
        ∀ d ∈ notes, ∃ s, d = Diag.noteUsingDefaults s := by
  intro pre
  induction pre with
  | nil =>
    intro c stderr acc _ _
    refine ⟨?_, [], ?_, ?_⟩
    · simp [scpLoop, hbad.1, SplitN2_malformed bad hbad]
    · simp [scpLoop, hbad.1, SplitN2_malformed bad hbad]
    · intro d hd; simp at hd
  | cons arg pre ih =>
    intro c stderr acc hsame hpre
    have hpre2 : ∀ a ∈ pre, startsWithColon a = true →
        ∃ target path entry, a = ":" ++ target ++ ":" ++ path ∧ ':' ∉ target.data ∧
          (effectiveEntry cfg (resolveAlias cfg target)).result = .ok entry :=
      fun a ha => hpre a (List.mem_cons_of_mem _ ha)
    cases hcol : startsWithColon arg with
    | false =>
      simp only [List.cons_append, scpLoop, hcol, Bool.false_eq_true, if_false]
      exact ih c stderr _ hsame hpre2
    | true =>
      obtain ⟨target, path, entry, harg, hnot, hres⟩ :=
        hpre arg (List.mem_cons_self _ _) hcol
      have halias : resolveAlias c target = resolveAlias cfg target := by
        simp only [resolveAlias, hsame.2.2.2.2.2.2.1]
      obtain ⟨hresult, hsame2⟩ :=
        effectiveEntry_sameResolution cfg c hsame (resolveAlias cfg target)
      rw [hres] at hresult
      have hsplit : SplitN2 (dropFirst arg) ':' = [target, path] := by
        rw [harg]; exact SplitN2_remote target path hnot
      simp only [List.cons_append, scpLoop, hcol, hsplit, halias, hresult, if_true]
      obtain ⟨hout, notes, hnotes, hall⟩ :=
        ih (effectiveEntry c (resolveAlias cfg target)).cfg
          (stderr ++ (effectiveEntry c (resolveAlias cfg target)).stderr)
          (acc ++ [buildConnStr (effectiveEntry c (resolveAlias cfg target)).cfg.User entry
            (resolveAlias cfg target)
            (effectiveEntry c (resolveAlias cfg target)).cfg.CyberArkHost ++ ":" ++ path])
          hsame2 hpre2
      refine ⟨hout, (effectiveEntry c (resolveAlias cfg target)).stderr ++ notes, ?_, ?_⟩
      · exact hnotes.trans (by simp [List.append_assoc])
      · intro d hd
        rcases List.mem_append.1 hd with h1 | h1
        · exact effectiveEntry_stderr_notes c _ d h1
        · exact hall d h1

/-- C8 as stated fails: in `cfgScenario1` (no default vault) the arguments
`:nosuch:/x`, `:web1` contain the malformed token `:web1`, yet `doSCP` stops at
`:nosuch:/x` with the resolution error; no usage error is written and `:web1`
is not named. -/
theorem doSCP_malformed_counterexample :
    2 ≤ [":nosuch:/x", ":web1"].length ∧
    ":web1" ∈ [":nosuch:/x", ":web1"] ∧
    malformedRemote ":web1" ∧
    (doSCP cfgScenario1 [":nosuch:/x", ":web1"]).stderr
      = [.resolveError (.notFoundNoDefault "nosuch")] ∧
    Diag.invalidRemotePath ":web1" ∉ (doSCP cfgScenario1 [":nosuch:/x", ":web1"]).stderr := by
  decide

/-- C8, amended: with fewer than two path arguments `doSCP` exits with the
usage message; a list that contains a malformed remote-path token never yields
an argument vector; and when every argument before a malformed token either
does not begin with `:` or is a well-formed remote path whose target resolves,
`doSCP` exits with the error that names that token, having written nothing
before it but notices. -/
theorem doSCP_malformed (cfg : Config) (args : List String) :
    (args.length < 2 →
      (doSCP cfg args).outcome = .exit1 ∧ (doSCP cfg args).stderr = [.scpUsage]) ∧
    ((∃ bad ∈ args, malformedRemote bad) →
      ∀ argv, (doSCP cfg args).outcome ≠ .argv argv) ∧
    (∀ pre bad post, 2 ≤ args.length → args = pre ++ bad :: post → malformedRemote bad →
      (∀ a ∈ pre, startsWithColon a = true →
        ∃ target path entry, a = ":" ++ target ++ ":" ++ path ∧ ':' ∉ target.data ∧
          (effectiveEntry cfg (resolveAlias cfg target)).result = .ok entry) →
      (doSCP cfg args).outcome = .exit1 ∧
      ∃ notes, (doSCP cfg args).stderr = notes ++ [.invalidRemotePath bad] ∧
        ∀ d ∈ notes, ∃ s, d = Diag.noteUsingDefaults s) := by
  refine ⟨?_, ?_, ?_⟩
  · intro hlen
    simp [doSCP, hlen]
  · intro hbad argv
    by_cases hlen : args.length < 2
    · simp [doSCP, hlen]
    · simp only [doSCP, hlen, if_false]
      exact scpLoop_malformed_no_argv args _ _ _ hbad argv
  · intro pre bad post hlen hargs hbad hpre
    have hlt : ¬ args.length < 2 := by omega
    simp only [doSCP, hlt, if_false]
    rw [hargs]
    obtain ⟨hout, notes, hnotes, hall⟩ :=
      scpLoop_first_malformed cfg bad post hbad pre cfg [] _ (sameResolution_refl cfg) hpre
    exact ⟨hout, notes, by simpa using hnotes, hall⟩

/-- C8, amended, at scenario 5 of the specification (`:web1` after a local
file), at a single argument, and at a malformed token after a remote path
that resolves. -/
theorem doSCP_malformed_witness :
    ((doSCP cfgScenario1 ["file.txt"]).outcome = .exit1 ∧
      (doSCP cfgScenario1 ["file.txt"]).stderr = [.scpUsage]) ∧
    (∀ argv, (doSCP cfgScenario1 ["file.txt", ":web1"]).outcome ≠ .argv argv) ∧
    ((doSCP cfgChained [":nosuch:/x", ":web1"]).outcome = .exit1 ∧
      ∃ notes, (doSCP cfgChained [":nosuch:/x", ":web1"]).stderr
          = notes ++ [.invalidRemotePath ":web1"] ∧
        ∀ d ∈ notes, ∃ s, d = Diag.noteUsingDefaults s) :=
  ⟨(doSCP_malformed cfgScenario1 ["file.txt"]).1 (by decide),
   (doSCP_malformed cfgScenario1 ["file.txt", ":web1"]).2.1 ⟨":web1", by decide, by decide⟩,
   (doSCP_malformed cfgChained [":nosuch:/x", ":web1"]).2.2 [":nosuch:/x"] ":web1" []
      (by decide) (by decide) (by decide)
      (by
        intro a ha _
        simp only [List.mem_singleton] at ha
        subst ha
        exact ⟨"nosuch", "/x", ⟨"vault_d", "", ""⟩, by decide, by decide, by decide⟩)⟩

end CyberarkSSH
